import Mathlib

/-!
Shallow embedding of `src/zed-extension/src/lib.rs`, the single source file of
the `database-operations-mcp` Zed extension. The file defines a unit struct
`DatabaseOperationsMcpExtension`, an inherent constructor `new`, a trait-level
constructor (`zed::Extension::new`) delegating to it, and the method
`context_server_command`, which ignores both of its inputs and returns a fixed
`zed::Command` value.

Modelling choices:
- `zed::ContextServerId` is a newtype over a string in the host API; it is
  embedded as a one-field structure over `String`.
- `zed::Project` is an opaque host-supplied handle; it is embedded as a
  one-field structure over `Nat` standing for an abstract token, so that
  quantification over distinct project handles is meaningful.
- `zed::Command` has fields `command : String`, `args : Vec<String>`,
  `env : Vec<(String, String)>`; vectors become lists.
- `zed::Result<T>` is `Result<T, String>`; it becomes `Except String T`.
- The method receives `&mut self`; it is embedded in state-passing style,
  returning the result together with the (possibly updated) receiver state.
-/

/-- Embedding of `zed::ContextServerId`: a newtype over a string identifier. -/
structure ContextServerId where
  id : String
deriving Repr, DecidableEq

/-- Embedding of `zed::Project`: an opaque host-supplied handle, modelled as an
abstract token so that distinct handles exist. -/
structure Project where
  handle : Nat
deriving Repr, DecidableEq

/-- Embedding of `zed::Command`: the command descriptor with an executable
name, an ordered argument list, and an environment mapping given as a list of
name-value pairs. -/
structure Command where
  command : String
  args : List String
  env : List (String × String)
deriving Repr, DecidableEq

/-- Embedding of `Default::default()` for the environment field type
`Vec<(String, String)>`: the empty vector. -/
def envDefault : List (String × String) := []

/-- Embedding of the unit struct `DatabaseOperationsMcpExtension`; it carries
no data. -/
structure DatabaseOperationsMcpExtension where
deriving Repr, DecidableEq

namespace DatabaseOperationsMcpExtension

/-- Embedding of the inherent constructor
`DatabaseOperationsMcpExtension::new`, whose body is `Self`. -/
def new : DatabaseOperationsMcpExtension := {}

end DatabaseOperationsMcpExtension

namespace ExtensionImpl

/-- Embedding of the trait method `<DatabaseOperationsMcpExtension as
zed::Extension>::new`, whose body is `Self::new()`, delegating to the inherent
constructor. -/
def new : DatabaseOperationsMcpExtension := DatabaseOperationsMcpExtension.new

/-- Embedding of the trait method `context_server_command(&mut self, _id,
_project)`. The receiver is passed and returned explicitly because the Rust
method takes `&mut self`; the body builds `Ok(zed::Command { command: "uv",
args: vec!["run", "--project", ".", "--mcp"], env: Default::default() })` and
leaves the receiver untouched. -/
def context_server_command (s : DatabaseOperationsMcpExtension)
    (_id : ContextServerId) (_project : Project) :
    Except String Command × DatabaseOperationsMcpExtension :=
  (Except.ok
    { command := "uv"
      args := ["run", "--project", ".", "--mcp"]
      env := envDefault },
   s)

/-- Sequence of invocations of `context_server_command` on a starting receiver
state, one call per listed input pair, returning the final receiver state.
Used to express that any number of calls leaves the adapter state unchanged. -/
def runCalls (s : DatabaseOperationsMcpExtension)
    (inputs : List (ContextServerId × Project)) :
    DatabaseOperationsMcpExtension :=
  match inputs with
  | [] => s
  | (i, p) :: rest => runCalls (context_server_command s i p).2 rest

end ExtensionImpl

/-- C1: for every context-server identifier and every project handle,
`context_server_command` returns successfully a command descriptor whose
executable is "uv", whose arguments are exactly ["run", "--project", ".",
"--mcp"] in order, and whose environment mapping is empty. -/
theorem context_server_command_fixed_shape
    (s : DatabaseOperationsMcpExtension) (i : ContextServerId) (p : Project) :
    (ExtensionImpl.context_server_command s i p).1 =
      Except.ok
        { command := "uv"
          args := ["run", "--project", ".", "--mcp"]
          env := ([] : List (String × String)) } := by
  rfl

/-- C2: determinism — two invocations of `context_server_command` on the same
receiver with any pair of identifier inputs and any pair of project inputs
return equal command descriptors; the result depends on neither input. -/
theorem context_server_command_deterministic
    (s : DatabaseOperationsMcpExtension)
    (i₁ i₂ : ContextServerId) (p₁ p₂ : Project) :
    (ExtensionImpl.context_server_command s i₁ p₁).1 =
      (ExtensionImpl.context_server_command s i₂ p₂).1 := by
  rfl

/-- C3: `context_server_command` never fails — for every identifier and
project input the returned result is the success variant, and it is never the
error variant. -/
theorem context_server_command_never_fails
    (s : DatabaseOperationsMcpExtension) (i : ContextServerId) (p : Project) :
    (∃ c, (ExtensionImpl.context_server_command s i p).1 = Except.ok c) ∧
      ∀ e, (ExtensionImpl.context_server_command s i p).1 ≠ Except.error e := by
  refine ⟨⟨_, rfl⟩, ?_⟩
  intro e h
  exact Except.noConfusion h

/-- C4: no side effects on adapter state — after any number of invocations of
`context_server_command` (given as a list of input pairs), the adapter state
equals its state before the calls. -/
theorem context_server_command_no_side_effects
    (s : DatabaseOperationsMcpExtension)
    (inputs : List (ContextServerId × Project)) :
    ExtensionImpl.runCalls s inputs = s := by
  induction inputs generalizing s with
  | nil => rfl
  | cons ip rest ih =>
    obtain ⟨i, p⟩ := ip
    exact ih s

/-- C5: totality of resolution — for every receiver state, identifier and
project input, `context_server_command` returns a value: there is a unique
result it evaluates to, with no precondition. -/
theorem context_server_command_total
    (s : DatabaseOperationsMcpExtension) (i : ContextServerId) (p : Project) :
    ∃ r : Except String Command × DatabaseOperationsMcpExtension,
      ExtensionImpl.context_server_command s i p = r ∧ r.1.isOk = true := by
  exact ⟨ExtensionImpl.context_server_command s i p, rfl, rfl⟩

/-- C6: the trait-level constructor takes no inputs and returns a new
stateless adapter instance; since the adapter type carries no data, every
instance equals every other instance, in particular the constructed one. -/
theorem extension_new_stateless :
    ∀ a b : DatabaseOperationsMcpExtension,
      a = b ∧ a = ExtensionImpl.new := by
  intro a b
  exact ⟨rfl, rfl⟩

/-- C7: the two constructor paths coincide — the trait-level constructor
delegates to the inherent constructor and both return the unique value of the
unit struct. -/
theorem extension_new_eq_inherent_new :
    ExtensionImpl.new = DatabaseOperationsMcpExtension.new := by
  rfl

/-- C8: receiver independence — for any two adapter instances and any inputs,
`context_server_command` returns equal command descriptors on both; the result
depends on neither the receiver nor any input. -/
theorem context_server_command_receiver_independent
    (s₁ s₂ : DatabaseOperationsMcpExtension)
    (i₁ i₂ : ContextServerId) (p₁ p₂ : Project) :
    (ExtensionImpl.context_server_command s₁ i₁ p₁).1 =
      (ExtensionImpl.context_server_command s₂ i₂ p₂).1 := by
  rfl

/-- C9: safety of the embedding — both constructor and resolution are total
functions: the constructor evaluates to the unit value, and resolution
evaluates, for every input and with no precondition, to a success result whose
environment is exactly the default value of the environment type, which is the
empty mapping. -/
theorem embedding_safe
    (s : DatabaseOperationsMcpExtension) (i : ContextServerId) (p : Project) :
    ExtensionImpl.new = {} ∧
      ∃ c, ExtensionImpl.context_server_command s i p = (Except.ok c, s) ∧
        c.env = envDefault ∧ envDefault = [] := by
  exact ⟨rfl, _, rfl, rfl, rfl⟩
